import Mathlib

/-!
# Verification of the card-detector pipeline (`cards.py`)

Shallow embedding of the playing-card detection pipeline: shape extraction
(`get_card_contours`), perspective normalization (`flattener`), rank-region
extraction (`process_card`), template loading (`load_ranks`) and rank
classification (`get_card_rank`).

External OpenCV collaborators whose internals are outside the repository
(Gaussian blur, contour tracing, polygon approximation, perspective
resampling, Otsu level computation, file reading) are modelled as an
explicit environment `CVEnv`; every operation implemented by the repository
itself is embedded directly.  Machine `float` arithmetic on coordinates and
areas is modelled with exact rationals.
-/

/-- A raster image: `height` rows by `width` columns with a channel-count
tag.  Pixel content is a total function from (row, column) to an intensity
value; multi-channel colour content is abstracted to a single value per
pixel, which suffices because every content-relevant stage of the pipeline
operates on single-channel images. -/
structure Image where
  height : Nat
  width : Nat
  channels : Nat
  pix : Nat → Nat → Nat

/-- A 2-D point with exact-rational coordinates (models an OpenCV
`float32` point `[x, y]`). -/
abbrev Pt : Type := ℚ × ℚ

/-- A contour: the list of integer pixel coordinates `(x, y)` of a closed
boundary curve, as returned by `cv2.findContours`. -/
abbrev Contour : Type := List (Nat × Nat)

/-! ## Constants (`cards.py` lines 14-26) -/

def CARD_MAX_AREA : Nat := 6000
def CARD_MIN_AREA : Nat := 3500
def CORNER_HEIGHT : Nat := 70
def CORNER_WIDTH : Nat := 45
def RANK_HEIGHT : Nat := 125
def RANK_WIDTH : Nat := 70

/-- Polygon approximation accuracy scaling factor (`POLY_ACC_CONST = 0.01`). -/
def POLY_ACC_CONST : ℚ := 1 / 100

def CARD_THRESH : Nat := 200
def RANK_THRESH : Nat := 30

/-! ## External collaborator boundary

The OpenCV operations used by the pipeline whose algorithms live outside
this repository.  They are passed as an environment so the repository's own
logic is quantified over every possible collaborator behaviour. -/

/-- The external OpenCV collaborators: `cv2.GaussianBlur`,
`cv2.findContours` (each contour paired with its parent index
`hier[0][i][3]`), `cv2.arcLength`, `cv2.approxPolyDP`, the perspective
resampling of `cv2.warpPerspective` (per-destination-pixel source lookup),
the Otsu threshold level of `cv2.threshold(..., THRESH_OTSU)`, and
`cv2.imread` (`none` models the `None` returned for a missing or unreadable
file). -/
structure CVEnv where
  gaussianBlur : Image → Image
  findContours : Image → List (Contour × Int)
  arcLength : Contour → ℚ
  approxPolyDP : Contour → ℚ → List Pt
  warpSample : Image → (Fin 4 → Pt) → Nat → Nat → Nat → Nat → Nat
  otsu : Image → Nat
  imread : String → Option Image

/-! ## Implemented image and contour primitives -/

/-- `cv2.cvtColor(img, COLOR_BGR2GRAY)`: a single-channel image of the same
dimensions.  The fixed-point luma formula is content we never inspect, so
the intensity function is carried through unchanged. -/
def cvtColorGray (img : Image) : Image :=
  { height := img.height, width := img.width, channels := 1, pix := img.pix }

/-- `cv2.threshold(img, t, 255, THRESH_BINARY)`: pixels strictly above the
level become 255, the rest 0; dimensions unchanged. -/
def thresholdBin (img : Image) (t : Nat) : Image :=
  { height := img.height, width := img.width, channels := img.channels,
    pix := fun r c => if t < img.pix r c then 255 else 0 }

/-- Cross product term of the shoelace formula for one edge. -/
def crossTerm (p q : Nat × Nat) : Int :=
  (p.1 : Int) * (q.2 : Int) - (q.1 : Int) * (p.2 : Int)

/-- `cv2.contourArea`: half the absolute value of the cyclic shoelace sum
(Green's formula) over the polygon's vertices. -/
def contourArea (cnt : Contour) : ℚ :=
  ((((cnt.zip (cnt.rotate 1)).map (fun pq => crossTerm pq.1 pq.2)).sum).natAbs : ℚ) / 2

/-- An axis-aligned bounding box `(x, y, w, h)`. -/
structure BBox where
  x : Nat
  y : Nat
  w : Nat
  h : Nat

/-- `cv2.boundingRect`: the tight upright bounding box of a contour, with
`w = maxX - minX + 1` and `h = maxY - minY + 1`; the all-zero box for an
empty contour. -/
def boundingRect (cnt : Contour) : BBox :=
  match cnt with
  | [] => ⟨0, 0, 0, 0⟩
  | p :: ps =>
    let xs := (p :: ps).map Prod.fst
    let ys := (p :: ps).map Prod.snd
    let x0 := xs.foldl min p.1
    let y0 := ys.foldl min p.2
    let x1 := xs.foldl max p.1
    let y1 := ys.foldl max p.2
    ⟨x0, y0, x1 + 1 - x0, y1 + 1 - y0⟩

/-- NumPy slice `img[r0:r1, c0:c1]` (with Python's clamping semantics for
in-range starts): the pixel at `(r, c)` of the slice is the pixel at
`(r0 + r, c0 + c)` of the source. -/
def sliceImg (img : Image) (r0 r1 c0 c1 : Nat) : Image :=
  { height := min r1 img.height - r0, width := min c1 img.width - c0,
    channels := img.channels, pix := fun r c => img.pix (r0 + r) (c0 + c) }

/-- `cv2.resize(img, (w, h))`: an image of exactly the requested
destination size; the interpolation is modelled as index rescaling. -/
def cvResize (img : Image) (w h : Nat) : Image :=
  { height := h, width := w, channels := img.channels,
    pix := fun r c => img.pix (r * img.height / h) (c * img.width / w) }

/-! ## Perspective Normalizer (`flattener`, `cards.py` lines 206-272) -/

/-- `np.sum(pt)` for one corner point: `x + y`. -/
def sumOf (p : Pt) : ℚ := p.1 + p.2

/-- `np.diff(pt, axis=-1)` for one corner point: `y - x`. -/
def diffOf (p : Pt) : ℚ := p.2 - p.1

/-- `np.argmin` over the four values `f 0, f 1, f 2, f 3`: the first index
attaining the minimum. -/
def argmin4 (f : Fin 4 → ℚ) : Fin 4 :=
  let b1 : Fin 4 := if f 1 < f 0 then 1 else 0
  let b2 : Fin 4 := if f 2 < f b1 then 2 else b1
  if f 3 < f b2 then 3 else b2

/-- `np.argmax` over the four values `f 0, f 1, f 2, f 3`: the first index
attaining the maximum. -/
def argmax4 (f : Fin 4 → ℚ) : Fin 4 :=
  let b1 : Fin 4 := if f 0 < f 1 then 1 else 0
  let b2 : Fin 4 := if f b1 < f 2 then 2 else b1
  if f b2 < f 3 then 3 else b2

/-- `pts[np.argmin(s)]`: extreme corner with minimal coordinate sum. -/
def tlOf (pts : Fin 4 → Pt) : Pt := pts (argmin4 (fun i => sumOf (pts i)))

/-- `pts[np.argmax(s)]`: extreme corner with maximal coordinate sum. -/
def brOf (pts : Fin 4 → Pt) : Pt := pts (argmax4 (fun i => sumOf (pts i)))

/-- `pts[np.argmin(diff)]`: extreme corner with minimal `y - x`. -/
def trOf (pts : Fin 4 → Pt) : Pt := pts (argmin4 (fun i => diffOf (pts i)))

/-- `pts[np.argmax(diff)]`: extreme corner with maximal `y - x`. -/
def blOf (pts : Fin 4 → Pt) : Pt := pts (argmax4 (fun i => diffOf (pts i)))

/-- The `temp_rect` corner-ordering logic of `flattener` (lines 210-260):
`temp_rect` starts as `np.zeros((4,2))` and is overwritten by each of the
three sequential `if` blocks whose condition holds (vertical
`w <= 0.8*h`, horizontal `w >= 1.2*h`, diamond `0.8*h < w < 1.2*h`, the
diamond block splitting on `pts[1][0][1] <= pts[3][0][1]`). -/
def orderCorners (pts : Fin 4 → Pt) (w h : Nat) : Fin 4 → Pt :=
  let r0 : Fin 4 → Pt := fun _ => ((0 : ℚ), (0 : ℚ))
  let r1 : Fin 4 → Pt :=
    if (w : ℚ) ≤ 0.8 * (h : ℚ) then
      ![tlOf pts, trOf pts, brOf pts, blOf pts]
    else r0
  let r2 : Fin 4 → Pt :=
    if (1.2 : ℚ) * (h : ℚ) ≤ (w : ℚ) then
      ![blOf pts, tlOf pts, trOf pts, brOf pts]
    else r1
  let r3 : Fin 4 → Pt :=
    if 0.8 * (h : ℚ) < (w : ℚ) ∧ (w : ℚ) < 1.2 * (h : ℚ) then
      if (pts 1).2 ≤ (pts 3).2 then
        ![pts 1, pts 0, pts 3, pts 2]
      else
        ![pts 0, pts 3, pts 2, pts 1]
    else r2
  r3

/-- `flattener(image, pts, w, h)` (lines 206-272): order the corners,
build the 200x300 destination, warp the source image with the perspective
transform (external resampling), and convert to grayscale. -/
def flattener (env : CVEnv) (image : Image) (pts : Fin 4 → Pt) (w h : Nat) : Image :=
  let temp_rect := orderCorners pts w h
  let maxWidth := 200
  let maxHeight := 300
  let warp : Image :=
    { height := maxHeight, width := maxWidth, channels := image.channels,
      pix := env.warpSample image temp_rect maxWidth maxHeight }
  cvtColorGray warp

/-! ## Data model (`cards.py` lines 30-47) -/

/-- The `card` structure (lines 30-40).  Python initializes `contour`,
`corner_pts`, `center`, `img` and `rank_img` to empty lists; emptiness of
the image-valued and point-valued fields is modelled with `Option` /
`none`, and the `width` / `height` attributes added dynamically by
`process_card` are present with initial value 0. -/
structure card where
  contour : Contour := []
  corner_pts : List Pt := []
  center : Option (Int × Int) := none
  width : Nat := 0
  height : Nat := 0
  img : Option Image := none
  rank_img : Option Image := none
  best_rank_match : String := "Unknown"
  rank_diff : ℚ := 0

set_option linter.dupNamespace false

/-- The `rank` structure (lines 42-47): a rank name together with its
template image (`none` models a failed `cv2.imread`). -/
structure rank where
  rank : String := "rank_name"
  img : Option Image := none

/-! ## Stable descending sort by area

Python's `sorted(..., key=area, reverse=True)` is a stable sort: elements
are ordered by strictly greater key, and elements with equal keys keep
their original relative order.  On distinct indices this is exactly
sorting by the total order "greater key, or equal key and smaller index",
so any correct sort of the index list under `keyRel` produces the same
list Python does. -/

/-- Index order realised by a stable descending sort by `key`. -/
def keyRel (key : Nat → ℚ) (i j : Nat) : Prop :=
  key j < key i ∨ (key i = key j ∧ i ≤ j)

instance (key : Nat → ℚ) : DecidableRel (keyRel key) := fun i j => by
  unfold keyRel; infer_instance

instance (key : Nat → ℚ) : IsTotal Nat (keyRel key) where
  total i j := by
    rcases lt_trichotomy (key i) (key j) with h | h | h
    · exact Or.inr (Or.inl h)
    · rcases Nat.le_total i j with hij | hij
      · exact Or.inl (Or.inr ⟨h, hij⟩)
      · exact Or.inr (Or.inr ⟨h.symm, hij⟩)
    · exact Or.inl (Or.inl h)

instance (key : Nat → ℚ) : IsTrans Nat (keyRel key) where
  trans i j k hij hjk := by
    rcases hij with h1 | ⟨e1, l1⟩
    · rcases hjk with h2 | ⟨e2, _⟩
      · exact Or.inl (h2.trans h1)
      · exact Or.inl (e2 ▸ h1)
    · rcases hjk with h2 | ⟨e2, l2⟩
      · exact Or.inl (e1 ▸ h2)
      · exact Or.inr ⟨e1.trans e2, l1.trans l2⟩

/-- `sorted(range(n), key=key, reverse=True)`: the index list `0..n-1`
stably sorted by descending key. -/
def sortIdxByDesc (key : Nat → ℚ) (n : Nat) : List Nat :=
  List.insertionSort (keyRel key) (List.range n)

/-- `sorted(cnts, key=cv2.contourArea, reverse=True)`: contours stably
sorted by descending area (realised through the index sort). -/
def sortContoursByAreaDesc (l : List Contour) : List Contour :=
  (sortIdxByDesc (fun i => contourArea (l.getD i [])) l.length).map (fun i => l.getD i [])

/-! ## Shape Extractor (`get_card_contours`, `cards.py` lines 51-136) -/

/-- The preprocessing of `get_card_contours` (lines 58-75): grayscale,
Gaussian blur, fixed binary threshold at `CARD_THRESH`; followed by
`cv2.findContours` (line 81). -/
def detectedContours (env : CVEnv) (image : Image) : List (Contour × Int) :=
  env.findContours (thresholdBin (env.gaussianBlur (cvtColorGray (image))) CARD_THRESH)

/-- The per-contour acceptance test of lines 103-116: enclosed area
strictly below `CARD_MAX_AREA`, strictly above `CARD_MIN_AREA`, polygon
approximation (tolerance `POLY_ACC_CONST * perimeter`) with exactly 4
vertices, and no parent in the hierarchy (`hier_sort[i][3] == -1`). -/
def isCardContour (env : CVEnv) (cp : Contour × Int) : Bool :=
  let size := contourArea cp.1
  let accuracy := POLY_ACC_CONST * env.arcLength cp.1
  let approx := env.approxPolyDP cp.1 accuracy
  decide (size < (CARD_MAX_AREA : ℚ)) && decide ((CARD_MIN_AREA : ℚ) < size) &&
    decide (approx.length = 4) && decide (cp.2 = -1)

/-- The `card` record built for an accepted contour (lines 117-122):
`contour` is the contour itself and `corner_pts` the float cast of its
polygon approximation. -/
def mkCardAt (env : CVEnv) (cp : Contour × Int) : card :=
  { contour := cp.1,
    corner_pts := env.approxPolyDP cp.1 (POLY_ACC_CONST * env.arcLength cp.1) }

/-- The sorted index list of line 82 for the detected contours. -/
def cardIndexSort (env : CVEnv) (image : Image) : List Nat :=
  let cnts := detectedContours env image
  sortIdxByDesc (fun i => contourArea ((cnts.getD i ([], -1)).1)) cnts.length

/-- The indices (into the detected-contour list) that survive the
card-candidate filter, in sorted order. -/
def acceptedIndices (env : CVEnv) (image : Image) : List Nat :=
  let cnts := detectedContours env image
  (cardIndexSort env image).filter (fun i => isCardContour env (cnts.getD i ([], -1)))

/-- `get_card_contours(image)` (lines 51-136): preprocess, find contours,
sort indices by descending area, and append a `card` record for every
contour passing the candidate filter.  When no contours are detected every
loop is vacuous and the empty list is returned (the `try`/`except` never
fires on the empty case). -/
def get_card_contours (env : CVEnv) (image : Image) : List card :=
  let cnts := detectedContours env image
  (acceptedIndices env image).map (fun i => mkCardAt env (cnts.getD i ([], -1)))

/-! ## Rank Region Extractor (`process_card`, `cards.py` lines 138-176) -/

/-- Truncation toward zero, the semantics of Python's `int(...)` on a
rational value. -/
def truncQ (q : ℚ) : Int := if 0 ≤ q then ⌊q⌋ else ⌈q⌉

/-- `corner_pts` as a 4-point function for `flattener` (the NumPy array is
indexed `pts[i][0]`). -/
def cardPtsFn (c : card) : Fin 4 → Pt := fun i => c.corner_pts.getD i (0, 0)

/-- Lines 146-150: the centre of the card, the truncated arithmetic mean
of the corner points (`np.sum(pts, axis=0) / len(pts)` then `int(...)`). -/
def centerOf (c : card) : Int × Int :=
  let n : ℚ := (c.corner_pts.length : ℚ)
  (truncQ (((c.corner_pts.map Prod.fst).sum) / n),
   truncQ (((c.corner_pts.map Prod.snd).sum) / n))

/-- Line 153: the flattened 200x300 image of the card. -/
def flatOf (env : CVEnv) (c : card) (image : Image) : Image :=
  flattener env image (cardPtsFn c) (boundingRect c.contour).w (boundingRect c.contour).h

/-- Line 158: the corner crop `img[0:CORNER_HEIGHT, 0:CORNER_WIDTH]`. -/
def cornerCrop (img : Image) : Image :=
  sliceImg img 0 CORNER_HEIGHT 0 CORNER_WIDTH

/-- Line 163: `cv2.threshold(img, 0, 255, THRESH_BINARY + THRESH_OTSU)` —
binary threshold at the Otsu level computed by the collaborator. -/
def thresholdOtsu (env : CVEnv) (img : Image) : Image :=
  thresholdBin img (env.otsu img)

/-- Lines 167-168: the contours of the thresholded corner crop, sorted by
descending area. -/
def rankCnts (env : CVEnv) (c : card) (image : Image) : List Contour :=
  sortContoursByAreaDesc
    (((env.findContours (thresholdOtsu env (cornerCrop (flatOf env c image))))).map Prod.fst)

/-- `process_card(this_card, image)` (lines 138-176): store the bounding
box width/height, centre, and flattened image; crop and Otsu-threshold the
corner; if any contour is found in it, store the largest contour's tight
bounding-box crop resized to `RANK_WIDTH` x `RANK_HEIGHT` as `rank_img`.
The Python function mutates `this_card` in place and returns it; the
mutation is modelled as a functional record update. -/
def process_card (env : CVEnv) (this_card : card) (image : Image) : card :=
  let r := boundingRect this_card.contour
  let img' := flatOf env this_card image
  let thresh := thresholdOtsu env (cornerCrop img')
  match rankCnts env this_card image with
  | [] =>
    { this_card with
        width := r.w
        height := r.h
        center := some (centerOf this_card)
        img := some img' }
  | c0 :: _ =>
    let b := boundingRect c0
    let rank_crop := sliceImg thresh b.y (b.y + b.h) b.x (b.x + b.w)
    { this_card with
        width := r.w
        height := r.h
        center := some (centerOf this_card)
        img := some img'
        rank_img := some (cvResize rank_crop RANK_WIDTH RANK_HEIGHT) }

/-! ## Template loading (`load_ranks`, `cards.py` lines 185-204) -/

/-- The 13 rank names (line 189). -/
def rank_names : List String :=
  ["Ace", "Two", "Three", "Four", "Five", "Six", "Seven", "Eight", "Nine",
   "Ten", "Jack", "Queen", "King"]

/-- `load_ranks(path)` (lines 185-204): one `rank` record per name, whose
image is whatever `cv2.imread(path/<name>.jpg, IMREAD_GRAYSCALE)` returns
— `none` (Python `None`) when the file is missing or unreadable.  No check
or error of any kind is performed. -/
def load_ranks (env : CVEnv) (path : String) : List rank :=
  rank_names.map (fun name =>
    { rank := name, img := env.imread (path ++ "/" ++ name ++ ".jpg") })

/-! ## Rank Classifier (`get_card_rank`, `cards.py` lines 178-183)

Modelled from the spec: the body of `get_card_rank` in the source is
missing (it consists only of a `return` of names that are never defined, a
stub acknowledged by the design notes), so the Rank Classifier below is
modelled from the contract of spec section 4.4: a dissimilarity score —
pixel-wise absolute difference, summed, normalized by image area — against
every template of identical dimensions; the minimum-score template is
accepted iff its score is below `RANK_THRESH`, ties going to the first
template in library order; an empty glyph short-circuits to the
"Unknown" sentinel without computing any scores. -/

/-- Modelled from the spec: the dissimilarity score between two
equally-sized glyph images — the sum over all pixels of the absolute
intensity difference, divided by the image area. -/
def diffScore (a b : Image) : ℚ :=
  let total : Nat :=
    ((List.range a.height).map (fun r =>
      ((List.range a.width).map (fun c =>
        Int.natAbs ((a.pix r c : Int) - (b.pix r c : Int)))).sum)).sum
  (total : ℚ) / ((a.height : ℚ) * (a.width : ℚ))

/-- Modelled from the spec: the (name, score) list of the templates whose
loaded image has exactly the glyph's dimensions, in library order. -/
def scoreList (g : Image) (tmpls : List rank) : List (String × ℚ) :=
  tmpls.filterMap (fun t =>
    match t.img with
    | none => none
    | some ti =>
      if ti.height = g.height ∧ ti.width = g.width then
        some (t.rank, diffScore g ti)
      else none)

/-- Modelled from the spec: select the entry with the minimum score,
preferring the earlier entry on ties. -/
def pickBest : List (String × ℚ) → Option (String × ℚ)
  | [] => none
  | p :: ps =>
    match pickBest ps with
    | none => some p
    | some q => if q.2 < p.2 then some q else some p

/-- Modelled from the spec: `get_card_rank` — empty glyph short-circuits
to the sentinel; otherwise the best same-dimension template is accepted
iff its score is strictly below `RANK_THRESH`. -/
def get_card_rank (glyph : Option Image) (tmpls : List rank) : String × ℚ :=
  match glyph with
  | none => ("Unknown", 0)
  | some g =>
    match pickBest (scoreList g tmpls) with
    | none => ("Unknown", 0)
    | some q => if q.2 < (RANK_THRESH : ℚ) then (q.1, q.2) else ("Unknown", q.2)

/-! ## Concrete inputs used by witnesses -/

/-- A trivial all-black 8x8 colour image. -/
def img0 : Image := { height := 8, width := 8, channels := 3, pix := fun _ _ => 0 }

/-- A degenerate 4-corner input (all corners at the origin). -/
def pts0 : Fin 4 → Pt := fun _ => (0, 0)

/-- A collaborator environment that finds nothing and reads nothing. -/
def env0 : CVEnv :=
  { gaussianBlur := fun i => i
    findContours := fun _ => []
    arcLength := fun _ => 0
    approxPolyDP := fun _ _ => []
    warpSample := fun _ _ _ _ _ _ => 0
    otsu := fun _ => 0
    imread := fun _ => none }

/-! ## Claims about the Perspective Normalizer -/

/-- C4: for every environment, input image, 4-point quadrilateral and
bounding width/height, the output of `flattener` is a single-channel
image of exactly 200x300 pixels (200 wide, 300 tall). -/
theorem flattener_dims (env : CVEnv) (image : Image) (pts : Fin 4 → Pt) (w h : Nat) :
    (flattener env image pts w h).width = 200 ∧
    (flattener env image pts w h).height = 300 ∧
    (flattener env image pts w h).channels = 1 :=
  ⟨rfl, rfl, rfl⟩

/-- C2: with a positive bounding height, when `w ≤ 0.8·h` (vertical) the
ordered corners are exactly (min-sum, min-diff, max-sum, max-diff) of the
points, and when `w ≥ 1.2·h` (horizontal) the same four extrema rotated
one position, with the extreme bottom-left point becoming the rectified
top-left. -/
theorem flattener_vert_horiz (pts : Fin 4 → Pt) (w h : Nat) (hh : 0 < h) :
    ((w : ℚ) ≤ 0.8 * (h : ℚ) →
      orderCorners pts w h = ![tlOf pts, trOf pts, brOf pts, blOf pts]) ∧
    ((1.2 : ℚ) * (h : ℚ) ≤ (w : ℚ) →
      orderCorners pts w h = ![blOf pts, tlOf pts, trOf pts, brOf pts]) := by
  have hq : (0 : ℚ) < (h : ℚ) := by exact_mod_cast hh
  constructor
  · intro hv
    have h1 : ¬ ((1.2 : ℚ) * (h : ℚ) ≤ (w : ℚ)) := by nlinarith
    have h2 : ¬ (0.8 * (h : ℚ) < (w : ℚ) ∧ (w : ℚ) < 1.2 * (h : ℚ)) := by
      rintro ⟨h3, _⟩; linarith
    simp [orderCorners, hv, h1, h2]
  · intro hz
    have h2 : ¬ (0.8 * (h : ℚ) < (w : ℚ) ∧ (w : ℚ) < 1.2 * (h : ℚ)) := by
      rintro ⟨_, h3⟩; linarith
    simp [orderCorners, hz, h2]

/-- Witness for C2 at the concrete inputs `w = 1`, `h = 2` (vertical) —
the hypothesis `0 < 2` is discharged concretely. -/
theorem flattener_vert_horiz_witness :
    0 < 2 ∧
    ((((1 : Nat) : ℚ) ≤ 0.8 * ((2 : Nat) : ℚ) →
      orderCorners pts0 1 2 = ![tlOf pts0, trOf pts0, brOf pts0, blOf pts0]) ∧
    ((1.2 : ℚ) * ((2 : Nat) : ℚ) ≤ ((1 : Nat) : ℚ) →
      orderCorners pts0 1 2 = ![blOf pts0, tlOf pts0, trOf pts0, brOf pts0])) :=
  ⟨by decide, flattener_vert_horiz pts0 1 2 (by decide)⟩

/-- C3: in the diamond branch (`0.8·h < w < 1.2·h`) the corners are
ordered by vertex index alone: permutation (1, 0, 3, 2) when vertex 1's
y-coordinate is at most vertex 3's, and (0, 3, 2, 1) otherwise. -/
theorem flattener_diamond (pts : Fin 4 → Pt) (w h : Nat)
    (h1 : 0.8 * (h : ℚ) < (w : ℚ)) (h2 : (w : ℚ) < 1.2 * (h : ℚ)) :
    orderCorners pts w h =
      if (pts 1).2 ≤ (pts 3).2 then ![pts 1, pts 0, pts 3, pts 2]
      else ![pts 0, pts 3, pts 2, pts 1] := by
  simp only [orderCorners]
  rw [if_pos ⟨h1, h2⟩]

/-- Witness for C3 at the concrete inputs `w = 1`, `h = 1` — both strict
aspect-ratio bounds are discharged concretely. -/
theorem flattener_diamond_witness :
    (0.8 * ((1 : Nat) : ℚ) < ((1 : Nat) : ℚ)) ∧ (((1 : Nat) : ℚ) < 1.2 * ((1 : Nat) : ℚ)) ∧
    orderCorners pts0 1 1 =
      (if (pts0 1).2 ≤ (pts0 3).2 then ![pts0 1, pts0 0, pts0 3, pts0 2]
       else ![pts0 0, pts0 3, pts0 2, pts0 1]) :=
  ⟨by norm_num, by norm_num,
    flattener_diamond pts0 1 1 (by norm_num) (by norm_num)⟩

/-! ## Claims about the Shape Extractor -/

/-- Any filtering of the stably-descending index sort is pairwise ordered
by strictly larger key, with exact key ties in increasing original-index
order. -/
theorem sortIdx_filter_pairwise (key : Nat → ℚ) (n : Nat) (p : Nat → Bool) :
    ((sortIdxByDesc key n).filter p).Pairwise
      (fun i j => key j < key i ∨ (key i = key j ∧ i < j)) := by
  have hs : (sortIdxByDesc key n).Pairwise (keyRel key) :=
    List.sorted_insertionSort (keyRel key) (List.range n)
  have hn : (sortIdxByDesc key n).Nodup :=
    ((List.perm_insertionSort (keyRel key) (List.range n)).nodup_iff).mpr (List.nodup_range n)
  have hsf : ((sortIdxByDesc key n).filter p).Pairwise (keyRel key) :=
    hs.sublist (List.filter_sublist _)
  have hnf : ((sortIdxByDesc key n).filter p).Nodup := hn.filter p
  refine (hsf.and hnf).imp ?_
  rintro i j ⟨hk | ⟨he, hle⟩, hne⟩
  · exact Or.inl hk
  · exact Or.inr ⟨he, lt_of_le_of_ne hle hne⟩

/-- C7: the candidate sequence returned by `get_card_contours` is the
accepted contours in stably area-descending order: the card records are
exactly those built from the accepted indices, and those indices are
pairwise ordered by strictly decreasing contour area, with equal-area
candidates kept in their original detection order (smaller original index
first). -/
theorem get_card_contours_sorted (env : CVEnv) (image : Image) :
    get_card_contours env image =
      (acceptedIndices env image).map
        (fun i => mkCardAt env ((detectedContours env image).getD i ([], -1))) ∧
    (acceptedIndices env image).Pairwise (fun i j =>
      contourArea (((detectedContours env image).getD j ([], -1)).1) <
          contourArea (((detectedContours env image).getD i ([], -1)).1) ∨
        (contourArea (((detectedContours env image).getD i ([], -1)).1) =
            contourArea (((detectedContours env image).getD j ([], -1)).1) ∧ i < j)) := by
  refine ⟨rfl, ?_⟩
  exact sortIdx_filter_pairwise
    (fun i => contourArea (((detectedContours env image).getD i ([], -1)).1))
    (detectedContours env image).length
    (fun i => isCardContour env ((detectedContours env image).getD i ([], -1)))

/-- C8: when no boundary curves at all are detected, `get_card_contours`
returns the empty sequence (the embedded function is total, so no error is
signalled). -/
theorem get_card_contours_empty (env : CVEnv) (image : Image)
    (h : detectedContours env image = []) :
    get_card_contours env image = [] := by
  simp [get_card_contours, acceptedIndices, cardIndexSort, h, sortIdxByDesc]

/-- Witness for C8: the trivial environment detects no contours and the
extractor returns the empty list. -/
theorem get_card_contours_empty_witness :
    detectedContours env0 img0 = [] ∧ get_card_contours env0 img0 = [] :=
  ⟨rfl, get_card_contours_empty env0 img0 rfl⟩

/-- Evaluation of the Shape Extractor when exactly one contour is
detected: the output is a single candidate or nothing, according to the
candidate filter. -/
theorem get_card_contours_single (env : CVEnv) (image : Image) (c : Contour) (pr : Int)
    (hf : detectedContours env image = [(c, pr)]) :
    get_card_contours env image =
      if isCardContour env (c, pr) then [mkCardAt env (c, pr)] else [] := by
  simp only [get_card_contours, acceptedIndices, cardIndexSort, hf]
  simp only [sortIdxByDesc, List.length_cons, List.length_nil, List.range_succ,
    List.range_zero, List.nil_append, List.insertionSort, List.orderedInsert,
    List.filter, List.getD_cons_zero]
  split <;> simp_all

/-- A rectangular contour of enclosed area exactly `CARD_MIN_AREA`
(70 x 50 = 3500). -/
def c3500 : Contour := [(0, 0), (70, 0), (70, 50), (0, 50)]

/-- A four-point polygon approximation. -/
def ptsQuad : List Pt := [(0, 0), (70, 0), (70, 50), (0, 50)]

/-- An environment that detects exactly the area-3500 rectangle as a
parentless contour whose polygon approximation has 4 vertices. -/
def env5 : CVEnv :=
  { env0 with
      findContours := fun _ => [(c3500, -1)]
      approxPolyDP := fun _ _ => ptsQuad }

/-- Counterexample to C5: a top-level curve with a 4-vertex approximation
and enclosed area exactly `CARD_MIN_AREA` is NOT accepted — the extractor
returns no candidate for it, because the source filter uses strict
inequalities (`size > CARD_MIN_AREA`), not inclusive ones. -/
theorem area_bound_counterexample :
    contourArea c3500 = (CARD_MIN_AREA : ℚ) ∧
    (env5.approxPolyDP c3500 (POLY_ACC_CONST * env5.arcLength c3500)).length = 4 ∧
    detectedContours env5 img0 = [(c3500, -1)] ∧
    get_card_contours env5 img0 = [] := by
  have harea : contourArea c3500 = (CARD_MIN_AREA : ℚ) := by
    norm_num [contourArea, c3500, crossTerm, List.rotate, CARD_MIN_AREA]
  refine ⟨harea, rfl, rfl, ?_⟩
  rw [get_card_contours_single env5 img0 c3500 (-1) rfl]
  have hfalse : isCardContour env5 (c3500, -1) = false := by
    unfold isCardContour
    simp [harea]
  simp [hfalse]

/-- C5 (amended): the area filter is exclusive at both ends — with a
single detected parentless contour whose approximation has 4 vertices, a
candidate is produced iff its area is strictly between `CARD_MIN_AREA`
and `CARD_MAX_AREA`; area exactly at either bound is rejected, one unit
inside is accepted. -/
theorem area_filter_strict (env : CVEnv) (image : Image) (c : Contour) (pr : Int)
    (h4 : (env.approxPolyDP c (POLY_ACC_CONST * env.arcLength c)).length = 4)
    (hp : pr = -1)
    (hf : detectedContours env image = [(c, pr)]) :
    (get_card_contours env image ≠ [] ↔
      ((CARD_MIN_AREA : ℚ) < contourArea c ∧ contourArea c < (CARD_MAX_AREA : ℚ))) := by
  subst hp
  rw [get_card_contours_single env image c (-1) hf]
  unfold isCardContour
  simp only [h4]
  by_cases hlo : (CARD_MIN_AREA : ℚ) < contourArea c <;>
    by_cases hhi : contourArea c < (CARD_MAX_AREA : ℚ) <;>
      simp [hlo, hhi]

/-- A rectangular contour of enclosed area 3501, one unit inside the lower
bound. -/
def c3501 : Contour := [(0, 0), (3, 0), (3, 1167), (0, 1167)]

/-- An environment that detects exactly the area-3501 rectangle. -/
def envW : CVEnv :=
  { env0 with
      findContours := fun _ => [(c3501, -1)]
      approxPolyDP := fun _ _ => ptsQuad }

/-- Witness for the amended C5 at a concrete input: the area-3501
rectangle, one unit inside the exclusive lower bound, makes the
candidate-or-not equivalence concrete. -/
theorem area_filter_strict_witness :
    (envW.approxPolyDP c3501 (POLY_ACC_CONST * envW.arcLength c3501)).length = 4 ∧
    detectedContours envW img0 = [(c3501, -1)] ∧
    (get_card_contours envW img0 ≠ [] ↔
      ((CARD_MIN_AREA : ℚ) < contourArea c3501 ∧ contourArea c3501 < (CARD_MAX_AREA : ℚ))) :=
  ⟨rfl, rfl, area_filter_strict envW img0 c3501 (-1) rfl rfl rfl⟩

/-! ## Claims about the Rank Region Extractor -/

/-- Counterexample to C6: the corner region cropped from the 200x300
normalized image is 45 pixels wide (`CORNER_WIDTH = 45`), not 70 pixels
wide as claimed. -/
theorem corner_crop_not_70_wide :
    (cornerCrop (flattener env0 img0 pts0 4 5)).width ≠ 70 := by
  decide

/-- C6 (amended): the Rank Region Extractor crops a top-left region
exactly 45 pixels wide and 70 pixels tall from the flattened image,
binarizes it at the collaborator-computed Otsu level, takes the largest
foreground contour, and resizes that contour's tight bounding-box crop to
exactly 70x125 (`RANK_WIDTH` x `RANK_HEIGHT`); for a card whose incoming
`rank_img` is unset, whenever `process_card` produces a rank glyph it has
exactly those dimensions. -/
theorem rank_region_dims (env : CVEnv) (c : card) (image : Image) (pts : Fin 4 → Pt)
    (w h : Nat) (hc : c.rank_img = none) :
    (cornerCrop (flattener env image pts w h)).width = CORNER_WIDTH ∧
    (cornerCrop (flattener env image pts w h)).height = CORNER_HEIGHT ∧
    ∀ I : Image, (process_card env c image).rank_img = some I →
      I.width = RANK_WIDTH ∧ I.height = RANK_HEIGHT := by
  refine ⟨rfl, rfl, ?_⟩
  intro I hI
  unfold process_card at hI
  split at hI
  · simp only [hc] at hI
    exact Option.noConfusion hI
  · simp only [Option.some.injEq] at hI
    subst hI
    exact ⟨rfl, rfl⟩

/-- A default-initialized card record (`card()`). -/
def card0 : card := {}

/-- An environment whose contour finder always reports one single-point
contour (so a rank glyph is always produced). -/
def env1 : CVEnv :=
  { env0 with findContours := fun _ => [([(0, 0)], -1)] }

/-- Witness for the amended C6: for the freshly initialized card (whose
`rank_img` is unset) the corner-crop and glyph dimensions are concrete. -/
theorem rank_region_dims_witness :
    card0.rank_img = none ∧
    ((cornerCrop (flattener env1 img0 pts0 1 2)).width = CORNER_WIDTH ∧
     (cornerCrop (flattener env1 img0 pts0 1 2)).height = CORNER_HEIGHT ∧
     ∀ I : Image, (process_card env1 card0 img0).rank_img = some I →
       I.width = RANK_WIDTH ∧ I.height = RANK_HEIGHT) :=
  ⟨rfl, rank_region_dims env1 card0 img0 pts0 1 2 rfl⟩

/-- C10: `process_card` returns its card with `contour`, `corner_pts`,
`best_rank_match` and `rank_diff` unchanged; it sets `width` and `height`
to the contour's bounding-box dimensions, `center` to the truncated corner
mean, `img` to the flattened image; `rank_img` is left unchanged exactly
when no glyph contour is found and is set when one is. -/
theorem process_card_fields (env : CVEnv) (c : card) (image : Image) :
    (process_card env c image).contour = c.contour ∧
    (process_card env c image).corner_pts = c.corner_pts ∧
    (process_card env c image).best_rank_match = c.best_rank_match ∧
    (process_card env c image).rank_diff = c.rank_diff ∧
    (process_card env c image).width = (boundingRect c.contour).w ∧
    (process_card env c image).height = (boundingRect c.contour).h ∧
    (process_card env c image).center = some (centerOf c) ∧
    (process_card env c image).img = some (flatOf env c image) ∧
    (rankCnts env c image = [] → (process_card env c image).rank_img = c.rank_img) ∧
    (rankCnts env c image ≠ [] → ((process_card env c image).rank_img).isSome = true) := by
  unfold process_card
  cases hrc : rankCnts env c image with
  | nil => simp [hrc]
  | cons c0 tl => simp [hrc]

/-- Witness for C10 at concrete inputs (the trivial environment, the
fresh card and the black image). -/
theorem process_card_fields_witness :
    (process_card env0 card0 img0).contour = card0.contour ∧
    (process_card env0 card0 img0).corner_pts = card0.corner_pts ∧
    (process_card env0 card0 img0).best_rank_match = card0.best_rank_match ∧
    (process_card env0 card0 img0).rank_diff = card0.rank_diff ∧
    (process_card env0 card0 img0).width = (boundingRect card0.contour).w ∧
    (process_card env0 card0 img0).height = (boundingRect card0.contour).h ∧
    (process_card env0 card0 img0).center = some (centerOf card0) ∧
    (process_card env0 card0 img0).img = some (flatOf env0 card0 img0) ∧
    (rankCnts env0 card0 img0 = [] →
      (process_card env0 card0 img0).rank_img = card0.rank_img) ∧
    (rankCnts env0 card0 img0 ≠ [] →
      ((process_card env0 card0 img0).rank_img).isSome = true) :=
  process_card_fields env0 card0 img0

/-! ## Claim about template loading -/

/-- C9 evaluation at the failing input: in an environment where every
template file is missing (`cv2.imread` returns `None` for every path),
`load_ranks` does NOT fail — it returns a full-length 13-entry list every
one of whose template images is `None`, i.e. an invalid template set is
handed back to the caller and nothing stops per-frame processing. -/
theorem load_ranks_missing_files :
    (load_ranks env0 "card_images").length = 13 ∧
    ((load_ranks env0 "card_images").all fun t => t.img.isNone) = true :=
  ⟨rfl, rfl⟩

/-! ## Claims about the Rank Classifier (modelled from the spec) -/

/-- `pickBest` of a non-empty list always selects something. -/
theorem pickBest_cons_isSome (a : String × ℚ) (l : List (String × ℚ)) :
    (pickBest (a :: l)).isSome = true := by
  unfold pickBest
  rcases h : pickBest l with _ | b
  · simp [h]
  · by_cases h2 : b.2 < a.2 <;> simp [h, h2]

/-- `pickBest` returns an element of its input achieving the minimum
score (and, being defined with a strict comparison against the tail's
best, the first such element). -/
theorem pickBest_mem_min :
    ∀ (l : List (String × ℚ)) (q : String × ℚ),
      pickBest l = some q → q ∈ l ∧ ∀ p ∈ l, q.2 ≤ p.2 := by
  intro l
  induction l with
  | nil => intro q hq; cases hq
  | cons a tl ih =>
    intro q hq
    unfold pickBest at hq
    rcases htl : pickBest tl with _ | b
    · simp only [htl, Option.some.injEq] at hq
      subst hq
      rcases tl with _ | ⟨b, tb⟩
      · exact ⟨List.mem_singleton_self a, by simp⟩
      · exfalso
        have := pickBest_cons_isSome b tb
        rw [htl] at this
        cases this
    · simp only [htl] at hq
      obtain ⟨hbtl, hbmin⟩ := ih b htl
      by_cases hlt : b.2 < a.2
      · rw [if_pos hlt] at hq
        obtain rfl : b = q := by injection hq
        exact ⟨List.mem_cons_of_mem a hbtl,
          fun p hp => by
            rcases List.mem_cons.mp hp with rfl | hp
            · exact le_of_lt hlt
            · exact hbmin p hp⟩
      · rw [if_neg hlt] at hq
        obtain rfl : a = q := by injection hq
        exact ⟨List.mem_cons_self a tl,
          fun p hp => by
            rcases List.mem_cons.mp hp with rfl | hp
            · exact le_rfl
            · exact le_trans (not_lt.mp hlt) (hbmin p hp)⟩

/-- C1 (modelled from the spec, the source body of `get_card_rank` being
a stub): for a non-empty glyph, the classifier scores every
identically-dimensioned template, the selected entry attains the minimum
of all those scores, and its name is returned iff the minimum is below
`RANK_THRESH` (otherwise the sentinel); an empty glyph yields the
sentinel directly, no score list involved. -/
theorem get_card_rank_spec (tmpls : List rank) (g : Image) (q : String × ℚ)
    (hq : pickBest (scoreList g tmpls) = some q) :
    (q ∈ scoreList g tmpls ∧ ∀ p ∈ scoreList g tmpls, q.2 ≤ p.2) ∧
    get_card_rank (some g) tmpls =
      (if q.2 < (RANK_THRESH : ℚ) then (q.1, q.2) else ("Unknown", q.2)) ∧
    get_card_rank none tmpls = ("Unknown", 0) := by
  refine ⟨pickBest_mem_min _ q hq, ?_, rfl⟩
  simp only [get_card_rank, hq]

/-- A 1x1 glyph image. -/
def g1 : Image := { height := 1, width := 1, channels := 1, pix := fun _ _ => 0 }

/-- A one-template library whose only template has the glyph's size. -/
def tmpls1 : List rank := [{ rank := "Ace", img := some g1 }]

/-- Witness for C1 at a concrete glyph and library: the singleton score
list makes the hypothesis concrete. -/
theorem get_card_rank_spec_witness :
    pickBest (scoreList g1 tmpls1) = some ("Ace", diffScore g1 g1) ∧
    ((("Ace", diffScore g1 g1) ∈ scoreList g1 tmpls1 ∧
        ∀ p ∈ scoreList g1 tmpls1, ("Ace", diffScore g1 g1).2 ≤ p.2) ∧
     get_card_rank (some g1) tmpls1 =
       (if ("Ace", diffScore g1 g1).2 < (RANK_THRESH : ℚ)
        then (("Ace", diffScore g1 g1).1, ("Ace", diffScore g1 g1).2)
        else ("Unknown", ("Ace", diffScore g1 g1).2)) ∧
     get_card_rank none tmpls1 = ("Unknown", 0)) :=
  ⟨rfl, get_card_rank_spec tmpls1 g1 ("Ace", diffScore g1 g1) rfl⟩
